import Mathlib

/-!
Verification of the spur flag-parsing library (`src/cli`).

The adapter `GenericValue` (its `Get`, `Set`, `Apply`, `String` methods) is
translated directly from `src/cli/flag_value.go`.  The helpers it calls from
the `generic` package (`IsSlice`, `Zero`, `Convert`, `Set`, `ValueOfPtr`,
`PtrPanic`) and the flag registration layer (`Apply` per flag type,
`flagFromEnvOrFile`, help rendering) are not part of `src/`; they are
modelled from the specification, with the pointwise exceptions noted in the
doc comments where the repository's own tests in `src/cli/flag_test.go`
pin the behaviour.

Go state is made explicit: a `Store` is the heap, a `Loc` a pointer, and
every mutating method returns the updated adapter and store.  A `none`
result models a runtime fault (nil/dangling pointer), never an ordinary
error; ordinary errors travel in `Except`/`Option String` components.
-/

namespace Spur

/-- Heap locations: a shallow model of Go pointers used as flag destinations. -/
abbrev Loc := Nat

/-- The closed set of Go runtime values this development needs: the scalar
kinds bool, int, int64 and string, slices of int and string, and the
repository's custom `Parser` type (`[2]string`, declared in
`src/cli/flag_test.go`). -/
inductive GoVal where
  | vBool : Bool → GoVal
  | vInt : Int → GoVal
  | vInt64 : Int → GoVal
  | vString : String → GoVal
  | vIntSlice : List Int → GoVal
  | vStringSlice : List String → GoVal
  | vParser : String → String → GoVal
deriving DecidableEq

/-- The semantic kinds of `GoVal`, used by flag definitions and by the
conversion error messages. -/
inductive GoKind where
  | kBool
  | kInt
  | kInt64
  | kString
  | kIntSlice
  | kStringSlice
  | kParser
deriving DecidableEq

/-- The runtime kind of a value (Go's `reflect.TypeOf`). -/
def kindOf : GoVal → GoKind
  | .vBool _ => .kBool
  | .vInt _ => .kInt
  | .vInt64 _ => .kInt64
  | .vString _ => .kString
  | .vIntSlice _ => .kIntSlice
  | .vStringSlice _ => .kStringSlice
  | .vParser _ _ => .kParser

/-- The kind name as it appears in conversion error messages
(see the expected error regexps in `src/cli/flag_test.go`, e.g.
`could not parse "foobar" as int64 value for flag seconds`). -/
def kindName : GoKind → String
  | .kBool => "bool"
  | .kInt => "int"
  | .kInt64 => "int64"
  | .kString => "string"
  | .kIntSlice => "int slice"
  | .kStringSlice => "string slice"
  | .kParser => "generic"

/-- The zero value of a kind (Go's `reflect.Zero`); for slices, the
zero-length form. -/
def zeroOfKind : GoKind → GoVal
  | .kBool => .vBool false
  | .kInt => .vInt 0
  | .kInt64 => .vInt64 0
  | .kString => .vString ""
  | .kIntSlice => .vIntSlice []
  | .kStringSlice => .vStringSlice []
  | .kParser => .vParser "" ""

/-- Modelled from the spec: `generic.IsSlice` — runtime check whether a value
is a slice kind (the custom `Parser` is an array, not a slice). -/
def IsSlice : GoVal → Bool
  | .vIntSlice _ => true
  | .vStringSlice _ => true
  | _ => false

/-- Modelled from the spec: `generic.Zero` — the zero value of the same kind
as the argument ("reset the destination to its zero-length form"). -/
def Zero (v : GoVal) : GoVal := zeroOfKind (kindOf v)

/-- Which kinds are scalars (everything that is not a slice and not the
capability-based custom type). -/
def isScalarKind : GoKind → Bool
  | .kBool => true
  | .kInt => true
  | .kInt64 => true
  | .kString => true
  | _ => false

/-! ### String parsing (the lexical grammars of spec §4.1) -/

/-- Value of one digit character in the given base, if valid. -/
def digitVal (base : Nat) (c : Char) : Option Nat :=
  let d :=
    if '0' ≤ c ∧ c ≤ '9' then some (c.toNat - '0'.toNat)
    else if 'a' ≤ c ∧ c ≤ 'f' then some (c.toNat - 'a'.toNat + 10)
    else if 'A' ≤ c ∧ c ≤ 'F' then some (c.toNat - 'A'.toNat + 10)
    else none
  match d with
  | some v => if v < base then some v else none
  | none => none

/-- Parse a nonempty run of digits in the given base. -/
def parseDigits (base : Nat) (cs : List Char) : Option Nat :=
  if cs.isEmpty then none
  else
    cs.foldl
      (fun acc c =>
        match acc, digitVal base c with
        | some a, some d => some (a * base + d)
        | _, _ => none)
      (some 0)

/-- Modelled from the spec: the magnitude part of an integer literal,
"base-10 (and `0x`/`0o` prefixed, consistent with common integer literal
conventions)". -/
def parseMagnitude : List Char → Option Nat
  | '0' :: 'x' :: rest => parseDigits 16 rest
  | '0' :: 'X' :: rest => parseDigits 16 rest
  | '0' :: 'o' :: rest => parseDigits 8 rest
  | '0' :: 'O' :: rest => parseDigits 8 rest
  | '0' :: 'b' :: rest => parseDigits 2 rest
  | '0' :: 'B' :: rest => parseDigits 2 rest
  | cs => parseDigits 10 cs

/-- Modelled from the spec: signed integer literal parse. -/
def parseIntGo (s : String) : Option Int :=
  match s.toList with
  | '+' :: rest => (parseMagnitude rest).map (fun n => (n : Int))
  | '-' :: rest => (parseMagnitude rest).map (fun n => -(n : Int))
  | cs => (parseMagnitude cs).map (fun n => (n : Int))

/-- 64-bit signed range check (Go integers overflow is a conversion failure). -/
def int64Range (n : Int) : Bool :=
  decide (-(2 ^ 63) ≤ n) && decide (n < 2 ^ 63)

/-- The lexical forms Go's `strconv.ParseBool` accepts as true. -/
def goTrueForms : List String := ["1", "t", "T", "TRUE", "true", "True"]

/-- The lexical forms Go's `strconv.ParseBool` accepts as false. -/
def goFalseForms : List String := ["0", "f", "F", "FALSE", "false", "False"]

/-- Modelled from the spec: "standard boolean lexical forms"
(Go's `strconv.ParseBool`). -/
def parseBoolGo (s : String) : Option Bool :=
  if s ∈ goTrueForms then some true
  else if s ∈ goFalseForms then some false
  else none

/-- Conversion-failure cause for unparseable input; carries the offending
input as the spec requires. -/
def syntaxErr (s : String) : String :=
  "parsing \"" ++ s ++ "\": invalid syntax"

/-- Conversion-failure cause for numeric overflow. -/
def rangeErr (s : String) : String :=
  "parsing \"" ++ s ++ "\": value out of range"

/-- Modelled from the spec (§4.1): parse one string into a scalar of the
given kind.  The `kParser` case is translated from `Parser.Set` in
`src/cli/flag_test.go` (split on a comma, exactly two parts, otherwise the
error "invalid format").  Slice kinds have no scalar grammar. -/
def scalarFromString (k : GoKind) (s : String) : Except String GoVal :=
  match k with
  | .kBool =>
    if s = "" then .ok (.vBool false)
    else
      match parseBoolGo s with
      | some b => .ok (.vBool b)
      | none => .error (syntaxErr s)
  | .kInt =>
    match parseIntGo s with
    | some n => if int64Range n then .ok (.vInt n) else .error (rangeErr s)
    | none => .error (syntaxErr s)
  | .kInt64 =>
    match parseIntGo s with
    | some n => if int64Range n then .ok (.vInt64 n) else .error (rangeErr s)
    | none => .error (syntaxErr s)
  | .kString => .ok (.vString s)
  | .kParser =>
    match s.splitOn "," with
    | [a, b] => .ok (.vParser a b)
    | _ => .error "invalid format"
  | .kIntSlice => .error "unsupported conversion"
  | .kStringSlice => .error "unsupported conversion"

/-- Element kind of a slice kind. -/
def elemKind : GoKind → Option GoKind
  | .kIntSlice => some .kInt
  | .kStringSlice => some .kString
  | _ => none

/-- Append one converted element to a slice value. -/
def appendElem : GoVal → GoVal → Option GoVal
  | .vIntSlice xs, .vInt x => some (.vIntSlice (xs ++ [x]))
  | .vStringSlice xs, .vString x => some (.vStringSlice (xs ++ [x]))
  | _, _ => none

/-- The input of a conversion: either a string from the textual boundary, or
an already-typed value assigned programmatically. -/
inductive ConvInput where
  | str : String → ConvInput
  | typed : GoVal → ConvInput

/-- Modelled from the spec (§4.1): `generic.Convert`.  Given the current
typed value and an input, produce a correctly-typed replacement:
  * slice target, string input — parse per the element kind and append one
    element;
  * slice or scalar target, already-typed input of the same kind — replace
    wholesale;
  * scalar target, string input — parse per the kind's grammar.
No side effects; the adapter writes the result back. -/
def Convert (cur : GoVal) (input : ConvInput) : Except String GoVal :=
  match input with
  | .typed v =>
    if kindOf v = kindOf cur then .ok v else .error "unsupported conversion"
  | .str s =>
    match elemKind (kindOf cur) with
    | some ek =>
      match scalarFromString ek s with
      | .ok e =>
        match appendElem cur e with
        | some r => .ok r
        | none => .error "unsupported conversion"
      | .error c => .error c
    | none => scalarFromString (kindOf cur) s

/-! ### The store and the GenericValue adapter (from `src/cli/flag_value.go`) -/

/-- The heap: a list of values indexed by `Loc`. -/
abbrev Store := List GoVal

/-- Write a value at a location. -/
def storeSet (σ : Store) (l : Loc) (v : GoVal) : Store := σ.set l v

/-- `GenericValue` takes a pointer to a generic type
(`src/cli/flag_value.go:17-20`): the destination pointer and the
already-set flag. -/
structure GenericValue where
  ptr : Loc
  set : Bool
deriving DecidableEq

/-- The argument of `NewGenericValue`: a Go `interface{}` that either is a
pointer or is not. -/
inductive GoArg where
  | ptr : Loc → GoArg
  | val : GoVal → GoArg

/-- `NewGenericValue` (`src/cli/flag_value.go:23-26`) returns an adapter
given a pointer.  Modelled from the spec and the source doc comment:
`generic.PtrPanic` (not under `src/`) faults on a non-pointer argument;
the fault is modelled as `none`. -/
def NewGenericValue : GoArg → Option GenericValue
  | .ptr l => some ⟨l, false⟩
  | .val _ => none

/-- `Get` (`src/cli/flag_value.go:29-31`) returns the contents of the stored
pointer; `generic.ValueOfPtr` is modelled as a heap dereference. -/
def GenericValue.Get (v : GenericValue) (σ : Store) : Option GoVal :=
  σ[v.ptr]?

/-- `Apply` (`src/cli/flag_value.go:41-54`), translated statement by
statement: if the current value is a slice and the adapter has not already
been set, first clear the destination to its zero value and mark the adapter
set; then convert and, on success, store the converted value.  The returned
triple is the adapter and store after the call plus the returned error —
mutations made before a conversion error persist, exactly as in Go. -/
def GenericValue.Apply (v : GenericValue) (σ : Store) (value : ConvInput) :
    Option (GenericValue × Store × Option String) :=
  match σ[v.ptr]? with
  | none => none
  | some cur0 =>
    let p : GenericValue × Store :=
      if IsSlice cur0 && !v.set then
        ({ v with set := true }, storeSet σ v.ptr (Zero cur0))
      else (v, σ)
    match p.1.Get p.2 with
    | none => none
    | some cur =>
      match Convert cur value with
      | .error e => some (p.1, p.2, some e)
      | .ok val => some (p.1, storeSet p.2 p.1.ptr val, none)

/-- `Set` (`src/cli/flag_value.go:35-37`) delegates to `Apply` with the
string boxed as an `interface{}`. -/
def GenericValue.Set (v : GenericValue) (σ : Store) (s : String) :
    Option (GenericValue × Store × Option String) :=
  v.Apply σ (.str s)

/-- Equality of `Except` results is decidable; needed so that concrete runs
of the engine can be checked by `decide`. -/
instance {ε α : Type} [DecidableEq ε] [DecidableEq α] :
    DecidableEq (Except ε α) := fun a b =>
  match a, b with
  | .ok x, .ok y =>
    match decEq x y with
    | isTrue h => isTrue (by rw [h])
    | isFalse h => isFalse (by intro hh; cases hh; exact h rfl)
  | .error x, .error y =>
    match decEq x y with
    | isTrue h => isTrue (by rw [h])
    | isFalse h => isFalse (by intro hh; cases hh; exact h rfl)
  | .ok _, .error _ => isFalse (by intro hh; cases hh)
  | .error _, .ok _ => isFalse (by intro hh; cases hh)

/-! ### Environment / file resolution (spec §4.4) -/

/-- The process environment: variable name to value.  An absent variable
reads as the empty string, as in Go's `os.Getenv`. -/
abbrev Env := List (String × String)

/-- The readable part of the file system: path to contents.  A path with no
entry models a file that does not exist or is not readable. -/
abbrev FileSys := List (String × String)

/-- `os.Getenv`: the value of a variable, empty when unset. -/
def envValue (env : Env) (n : String) : String :=
  (env.lookup n).getD ""

/-- ASCII whitespace: the characters of `strings.TrimSpace` that the inputs
of this development can meet. -/
def isWhitespaceChar (c : Char) : Bool :=
  c = ' ' || c = '\t' || c = '\n' || c = '\r'

/-- Trim leading and trailing whitespace, a structural model of Go's
`strings.TrimSpace`. -/
def trimStr (s : String) : String :=
  String.mk (((s.toList.dropWhile isWhitespaceChar).reverse.dropWhile
    isWhitespaceChar).reverse)

/-- Modelled from the spec (§4.4): the file tier of resolution — the trimmed
contents of the first path that exists and is readable; a file whose
contents trim to nothing is treated as not found, consistent with the
environment case. -/
def fileFrom (fs : FileSys) : List String → Option String
  | [] => none
  | p :: rest =>
    match fs.lookup p with
    | some contents =>
      if trimStr contents ≠ "" then some (trimStr contents)
      else fileFrom fs rest
    | none => fileFrom fs rest

/-- Modelled from the spec (§4.4): `flagFromEnvOrFile` — check each name in
`envNames` in order and return the first whose environment value is a
nonempty string; only if none is found, fall back to the file tier. -/
def flagFromEnvOrFile (env : Env) (fs : FileSys) :
    List String → List String → Option String
  | [], paths => fileFrom fs paths
  | n :: rest, paths =>
    if envValue env n ≠ "" then some (envValue env n)
    else flagFromEnvOrFile env fs rest paths

/-! ### Flag definitions and `Apply` (spec §4.3) -/

/-- A flag definition (spec §3): kind, primary name, aliases, usage text,
declared default (`none` when left unset, standing for the kind's zero
value), optional caller-owned destination, environment variable names, file
paths, and the help-text default override. -/
structure FlagDef where
  kind : GoKind
  name : String
  aliases : List String
  usage : String
  value : Option GoVal
  destination : Option Loc
  envVars : List String
  filePaths : List String
  defaultText : Option String

/-- The primary name followed by the aliases, in declaration order. -/
def FlagNames (f : FlagDef) : List String := f.name :: f.aliases

/-- The declared default value: the `Value` field, or the kind's zero value
when the field was left unset. -/
def declaredDefault (f : FlagDef) : GoVal :=
  (f.value).getD (zeroOfKind f.kind)

/-- The wrapped conversion error of spec §4.3 step 1(b):
`could not parse %q as <kind> value for flag <name>: <cause>`. -/
def convErrMsg (s : String) (k : GoKind) (name : String) (cause : String) :
    String :=
  "could not parse \"" ++ s ++ "\" as " ++ kindName k ++ " value for flag "
    ++ name ++ ": " ++ cause

/-- Modelled from the spec (§4.3 step 1(b)(c)): the environment/file part of
initial-value resolution — if resolution finds a string, convert it through
the converter (wrapping a failure in `convErrMsg`); otherwise use the
declared default verbatim. -/
def resolveEnvDefault (f : FlagDef) (env : Env) (fs : FileSys) :
    Except String GoVal :=
  match flagFromEnvOrFile env fs f.envVars f.filePaths with
  | some s =>
    match Convert (zeroOfKind f.kind) (.str s) with
    | .ok v => .ok v
    | .error c => .error (convErrMsg s f.kind f.name c)
  | none => .ok (declaredDefault f)

/-- The primitive registry: each registered name carries its own adapter;
all adapters of one flag share one storage location. -/
abbrev Registry := List (String × GenericValue)

/-- Modelled from the spec (§4.3): the `Apply` state machine of the flag
type family.  Resolve the initial value, bind storage, and register one
adapter per name, all pointing at the same location.

Destination binding: for a scalar kind, a destination already holding a
non-zero value is used as-is and a zero-valued destination receives the
resolved value (spec §4.3 step 1(a)).  For slice and generic kinds the
repository's own tests pin the opposite behaviour — the destination is
overwritten with the resolved value even when it is non-zero
(`TestStringSliceFlagApply_DefaultValueWithDestination`,
`src/cli/flag_test.go:324-334`, and
`TestParseGenericDestinationNoValueNoFlags`,
`src/cli/flag_test.go:1814-1830`) — so the model follows the tests there.

A conversion failure during resolution aborts `Apply` with the wrapped
error and registers nothing. -/
def flagApply (f : FlagDef) (env : Env) (fs : FileSys) (σ : Store)
    (r : Registry) : Option (Except String (Store × Registry)) :=
  match f.destination with
  | some l =>
    match σ[l]? with
    | none => none
    | some cur =>
      if isScalarKind f.kind && !(cur == zeroOfKind f.kind) then
        some (.ok (σ, r ++ (FlagNames f).map fun n => (n, ⟨l, false⟩)))
      else
        match resolveEnvDefault f env fs with
        | .error e => some (.error e)
        | .ok v =>
          some (.ok (storeSet σ l v,
            r ++ (FlagNames f).map fun n => (n, ⟨l, false⟩)))
  | none =>
    match resolveEnvDefault f env fs with
    | .error e => some (.error e)
    | .ok v =>
      some (.ok (σ ++ [v],
        r ++ (FlagNames f).map fun n => (n, ⟨σ.length, false⟩)))

/-- The primitive registry's textual set: find the adapter registered under
the name and run its `Set`, keeping the mutated adapter in place.  `none`
models an unknown flag name (the registry's own error path, out of scope). -/
def registrySet : Registry → Store → String → String →
    Option (Registry × Store × Option String)
  | [], _, _, _ => none
  | (n, v) :: rest, σ, name, s =>
    if n = name then
      match v.Set σ s with
      | none => none
      | some (v1, σ1, err) => some ((n, v1) :: rest, σ1, err)
    else
      match registrySet rest σ name s with
      | none => none
      | some (rest1, σ1, err) => some ((n, v) :: rest1, σ1, err)

/-- The registry's parse loop over already-tokenized occurrences (tokenizing
`--name value` is the primitive registry's job, out of scope per spec §6):
each occurrence sets its flag; the first error aborts the parse. -/
def parseArgs : Registry → Store → List (String × String) →
    Option (Registry × Store × Option String)
  | r, σ, [] => some (r, σ, none)
  | r, σ, (name, s) :: rest =>
    match registrySet r σ name s with
    | none => none
    | some (r1, σ1, some e) => some (r1, σ1, some e)
    | some (r1, σ1, none) => parseArgs r1 σ1 rest

/-- The value observable under a name after parsing: dereference the pointer
of the adapter registered under that name. -/
def observe (r : Registry) (σ : Store) (name : String) : Option GoVal :=
  match r.lookup name with
  | some v => σ[v.ptr]?
  | none => none

/-- Run one flag end to end: apply it against an empty store and registry,
parse the occurrence list, and observe the named value.  `none` on fault,
unknown name, or parse error. -/
def runOne (f : FlagDef) (env : Env) (fs : FileSys)
    (args : List (String × String)) (obs : String) : Option GoVal :=
  match flagApply f env fs [] [] with
  | some (.ok (σ, r)) =>
    match parseArgs r σ args with
    | some (r1, σ1, none) => observe r1 σ1 obs
    | _ => none
  | _ => none

/-! ### Help-text rendering (spec §4.5) -/

/-- The backtick character, the placeholder delimiter of usage strings. -/
def backtickChar : Char := Char.ofNat 96

/-- Split a character list at its first backtick: the characters before it
and the characters after it, or `none` when it has no backtick. -/
def takeToBacktick : List Char → Option (List Char × List Char)
  | [] => none
  | c :: cs =>
    if c = backtickChar then some ([], cs)
    else
      match takeToBacktick cs with
      | some (pre, post) => some (c :: pre, post)
      | none => none

/-- Modelled from the spec (§4.5): extract the first backtick-delimited
substring of the usage text, also returning the usage with that pair of
backticks stripped; usage without a complete pair is returned unchanged. -/
def unquoteUsage (cs : List Char) : Option (List Char) × List Char :=
  match takeToBacktick cs with
  | none => (none, cs)
  | some (pre, rest) =>
    match takeToBacktick rest with
    | none => (none, cs)
    | some (ph, post) => (some ph, pre ++ (ph ++ post))

/-- One rendered name: `-n` for a single-character name, `--name` otherwise,
followed by the placeholder unless the flag is boolean. -/
def renderName (ph : String) (isBool : Bool) (n : String) : String :=
  (if n.length = 1 then "-" else "--") ++ n
    ++ (if isBool then "" else " " ++ ph)

/-- Modelled from the spec (§4.5) and the expected strings of the help
tests in `src/cli/flag_test.go`: the `(default: ...)` text — the explicit
`DefaultText` override when present; otherwise per kind: booleans always
show their default, strings only when nonempty (quoted), numerics show the
number, slices show their comma-joined quoted or bare elements when they
have any non-trivial element. -/
def defaultShown (f : FlagDef) : Option String :=
  match f.defaultText with
  | some t => some t
  | none =>
    match f.kind, f.value with
    | .kBool, some (.vBool b) => some (toString b)
    | .kBool, _ => some "false"
    | .kString, some (.vString s) =>
      if s = "" then none else some ("\"" ++ s ++ "\"")
    | .kString, _ => none
    | .kInt, some (.vInt n) => some (toString n)
    | .kInt, _ => some "0"
    | .kInt64, some (.vInt64 n) => some (toString n)
    | .kInt64, _ => some "0"
    | .kIntSlice, some (.vIntSlice xs) =>
      if xs.isEmpty then none
      else some (String.intercalate ", " (xs.map toString))
    | .kStringSlice, some (.vStringSlice xs) =>
      if xs.all (fun x => x = "") then none
      else some (String.intercalate ", " (xs.map fun x => "\"" ++ x ++ "\""))
    | _, _ => none

/-- Modelled from the spec (§4.5): `Render` — the conventional help line for
one flag definition: the rendered names with the placeholder, a tab, the
usage with the backtick pair stripped, the default text when one is shown,
and the configured environment variable names. -/
def Render (f : FlagDef) : String :=
  let uq := unquoteUsage f.usage.toList
  let ph :=
    match uq.1 with
    | some cs => String.mk cs
    | none => "value"
  let usageStr := String.mk uq.2
  let isBool := f.kind == .kBool
  let names :=
    String.intercalate ", " ((FlagNames f).map (renderName ph isBool))
  let defPart :=
    match defaultShown f with
    | some d => " (default: " ++ d ++ ")"
    | none => ""
  let envPart :=
    if f.envVars.isEmpty then ""
    else " [" ++ String.intercalate "," (f.envVars.map fun v => "$" ++ v) ++ "]"
  names ++ "\t" ++ trimStr (usageStr ++ defPart) ++ envPart

/-! ## Helper lemmas -/

/-- Writing at a valid location makes that location read back the value. -/
theorem storeSet_getElem? {σ : Store} {l : Loc} {cur v : GoVal}
    (h : σ[l]? = some cur) : (storeSet σ l v)[l]? = some v := by
  rcases List.getElem?_eq_some.mp h with ⟨hlt, _⟩
  exact List.getElem?_set_eq_of_lt v hlt

/-- The int-slice flag of `TestParseMultiIntSliceWithDefaults`
(`src/cli/flag_test.go:1208-1246`): primary name `serve`, alias `s`,
declared default `ds`, destination unset. -/
def intSliceServe (ds : List Int) : FlagDef :=
  ⟨.kIntSlice, "serve", ["s"], "", some (.vIntSlice ds), none, [], [], none⟩

/-! ## Claims -/

/-- C1: for a slice flag with any declared default and an unset destination,
parsing the two occurrences `-s 10 -s 20` yields `[10, 20]` under the
primary name and the alias — the default is fully replaced by the first
occurrence and the second appends — while parsing no occurrences leaves the
declared default; mechanically, the adapter's first `Set` since construction
resets the slice destination to zero length before appending, and every
later `Set` appends without reset. -/
theorem claim1_slice_accumulation :
    (∀ ds : List Int,
      runOne (intSliceServe ds) [] [] [("s", "10"), ("s", "20")] "serve"
          = some (.vIntSlice [10, 20])
      ∧ runOne (intSliceServe ds) [] [] [("s", "10"), ("s", "20")] "s"
          = some (.vIntSlice [10, 20])
      ∧ runOne (intSliceServe ds) [] [] [] "serve" = some (.vIntSlice ds))
  ∧ (∀ (σ : Store) (l : Loc) (xs : List Int) (s : String) (x : Int)
       (v1 : GenericValue) (σ1 : Store) (err : Option String),
      σ[l]? = some (.vIntSlice xs) →
      scalarFromString .kInt s = .ok (.vInt x) →
      GenericValue.Apply ⟨l, false⟩ σ (.str s) = some (v1, σ1, err) →
      err = none ∧ v1 = ⟨l, true⟩ ∧ σ1[l]? = some (.vIntSlice [x]))
  ∧ (∀ (σ : Store) (l : Loc) (xs : List Int) (s : String) (x : Int)
       (v1 : GenericValue) (σ1 : Store) (err : Option String),
      σ[l]? = some (.vIntSlice xs) →
      scalarFromString .kInt s = .ok (.vInt x) →
      GenericValue.Apply ⟨l, true⟩ σ (.str s) = some (v1, σ1, err) →
      err = none ∧ v1 = ⟨l, true⟩ ∧ σ1[l]? = some (.vIntSlice (xs ++ [x]))) := by
  refine ⟨fun ds => ⟨rfl, rfl, rfl⟩, ?_, ?_⟩
  · intro σ l xs s x v1 σ1 err h1 h2 h3
    unfold GenericValue.Apply at h3
    rw [h1] at h3
    simp only [IsSlice, Bool.not_false, Bool.and_self, if_true] at h3
    rw [show (GenericValue.Get ⟨l, true⟩ (storeSet σ l (Zero (.vIntSlice xs))))
          = some (.vIntSlice []) from storeSet_getElem? h1] at h3
    simp only [Convert, kindOf, elemKind, h2, appendElem] at h3
    cases h3
    exact ⟨rfl, rfl, storeSet_getElem? (storeSet_getElem? h1)⟩
  · intro σ l xs s x v1 σ1 err h1 h2 h3
    unfold GenericValue.Apply at h3
    rw [h1] at h3
    simp only [IsSlice, Bool.not_true, Bool.and_false, if_false,
      Bool.false_eq_true, GenericValue.Get] at h3
    rw [h1] at h3
    simp only [Convert, kindOf, elemKind, h2, appendElem] at h3
    cases h3
    exact ⟨rfl, rfl, storeSet_getElem? h1⟩

/-- C1 witness: the end-to-end run at the declared default `[9, 2]` of the
test, and the first-`Set` reset at a concrete store. -/
theorem claim1_slice_accumulation_witness :
    (runOne (intSliceServe [9, 2]) [] [] [("s", "10"), ("s", "20")] "serve"
        = some (.vIntSlice [10, 20]))
    ∧ ((none : Option String) = none ∧ (⟨0, true⟩ : GenericValue) = ⟨0, true⟩
        ∧ ([GoVal.vIntSlice [10]] : Store)[0]? = some (.vIntSlice [10])) :=
  ⟨(claim1_slice_accumulation.1 [9, 2]).1,
   claim1_slice_accumulation.2.1 [GoVal.vIntSlice [9, 2]] 0 [9, 2] "10" 10
     ⟨0, true⟩ [GoVal.vIntSlice [10]] none (by decide) (by decide) (by decide)⟩

/-- C4: for a scalar destination, a conversion failure during `Apply`/`Set`
returns the error and leaves both the adapter and the store exactly as they
were (no partial mutation); for a slice destination, a conversion failure on
the first set leaves the destination cleared — partially mutated — as the
spec's documented limitation allows. -/
theorem claim4_scalar_no_partial_mutation :
    (∀ (v : GenericValue) (σ : Store) (cur : GoVal) (s : String) (e : String),
      σ[v.ptr]? = some cur → IsSlice cur = false →
      Convert cur (.str s) = .error e →
      GenericValue.Apply v σ (.str s) = some (v, σ, some e))
  ∧ (GenericValue.Apply ⟨0, false⟩ [.vIntSlice [9, 2]] (.str "foobar")
        = some (⟨0, true⟩, [.vIntSlice []], some (syntaxErr "foobar"))
      ∧ (.vIntSlice [] : GoVal) ≠ .vIntSlice [9, 2]) := by
  refine ⟨?_, by decide, by decide⟩
  intro v σ cur s e h1 h2 h3
  unfold GenericValue.Apply
  rw [h1]
  simp only [h2, Bool.false_and, Bool.not_eq_true, if_neg, GenericValue.Get,
    h1, h3]

/-- C4 witness: parsing `"foobar"` into an int64 destination holding `7`
errors out and leaves the destination at `7`. -/
theorem claim4_scalar_no_partial_mutation_witness :
    GenericValue.Apply ⟨0, false⟩ [GoVal.vInt64 7] (.str "foobar")
      = some (⟨0, false⟩, [GoVal.vInt64 7], some (syntaxErr "foobar")) :=
  claim4_scalar_no_partial_mutation.1 ⟨0, false⟩ [GoVal.vInt64 7] (.vInt64 7)
    "foobar" (syntaxErr "foobar") (by decide) (by decide) (by decide)

/-- C6 counterexample: the claim says `touched` "becomes permanently true
after the first successful set".  On the code (`src/cli/flag_value.go:42-47`)
it does not: a successful set on a scalar destination (first equation — no
error, value stored) leaves `set` false, and a failed first set on a slice
destination (second equation — conversion error) has already made `set`
true. -/
theorem claim6_counterexample :
    GenericValue.Apply ⟨0, false⟩ [.vInt64 0] (.str "5")
        = some (⟨0, false⟩, [.vInt64 5], none)
    ∧ GenericValue.Apply ⟨0, false⟩ [.vIntSlice [9, 2]] (.str "foobar")
        = some (⟨0, true⟩, [.vIntSlice []], some (syntaxErr "foobar")) :=
  ⟨by decide, by decide⟩

/-- C6 amended: `touched` starts false at construction; every `Apply` leaves
it at `touched OR (the current destination value is a slice)` — so it
becomes permanently true at the first `Apply` on a slice destination even
when that conversion fails, stays false forever on scalar destinations, and
is never reset; on a slice destination whose adapter is untouched, `Apply`
behaves exactly like `Apply` of the touched adapter on the cleared
destination (first write clears the default, later writes append). -/
theorem claim6_touched_amended :
    (∀ l : Loc, NewGenericValue (.ptr l) = some ⟨l, false⟩)
  ∧ (∀ (v : GenericValue) (σ : Store) (cur : GoVal) (input : ConvInput)
       (out : GenericValue × Store × Option String),
      σ[v.ptr]? = some cur →
      GenericValue.Apply v σ input = some out →
      out.1.set = (v.set || IsSlice cur))
  ∧ (∀ (v : GenericValue) (σ : Store) (input : ConvInput)
       (out : GenericValue × Store × Option String),
      v.set = true → GenericValue.Apply v σ input = some out →
      out.1.set = true)
  ∧ (∀ (v : GenericValue) (σ : Store) (cur : GoVal) (input : ConvInput),
      σ[v.ptr]? = some cur → IsSlice cur = true → v.set = false →
      GenericValue.Apply v σ input
        = GenericValue.Apply ⟨v.ptr, true⟩ (storeSet σ v.ptr (Zero cur))
            input) := by
  have core : ∀ (v : GenericValue) (σ : Store) (cur : GoVal)
      (input : ConvInput) (out : GenericValue × Store × Option String),
      σ[v.ptr]? = some cur →
      GenericValue.Apply v σ input = some out →
      out.1.set = (v.set || IsSlice cur) := by
    intro v σ cur input out h1 h3
    unfold GenericValue.Apply at h3
    rw [h1] at h3
    cases hv : v.set <;> cases hs : IsSlice cur <;>
      simp only [hv, hs, Bool.not_false, Bool.not_true, Bool.and_true,
        Bool.and_false, Bool.true_and, Bool.false_and, Bool.or_false,
        Bool.or_true, Bool.false_or, Bool.true_or, if_true, if_false,
        Bool.false_eq_true, Bool.true_eq_false] at h3 ⊢ <;>
      split at h3 <;> try (cases h3)
    all_goals (split at h3 <;> (try cases h3) <;> simp [hv])
  refine ⟨fun l => rfl, core, ?_, ?_⟩
  · intro v σ input out hv h3
    unfold GenericValue.Apply at h3
    rw [hv] at h3
    simp only [Bool.not_true, Bool.and_false, if_false, Bool.false_eq_true]
      at h3
    split at h3
    · cases h3
    · split at h3
      · cases h3
      · split at h3 <;> cases h3 <;> simp [hv]
  · intro v σ cur input h1 hs hv
    unfold GenericValue.Apply
    rw [h1, storeSet_getElem? h1]
    simp only [hs, hv, Bool.not_false, Bool.not_true, Bool.and_true,
      Bool.and_false, if_true, if_false, Bool.false_eq_true, Zero]

/-- C6 witness: the touched dynamics at concrete inputs — a scalar set
leaves `set` false, a touched adapter stays touched, and the untouched
slice `Apply` equals the touched `Apply` on the cleared store. -/
theorem claim6_touched_amended_witness :
    (GenericValue.mk 0 false).set = ((false : Bool) || IsSlice (.vInt64 0))
    ∧ (⟨0, true⟩ : GenericValue).set = true
    ∧ GenericValue.Apply ⟨0, false⟩ [GoVal.vIntSlice [9, 2]] (.str "10")
        = GenericValue.Apply ⟨0, true⟩
            (storeSet [GoVal.vIntSlice [9, 2]] 0 (Zero (.vIntSlice [9, 2])))
            (.str "10") :=
  ⟨claim6_touched_amended.2.1 ⟨0, false⟩ [GoVal.vInt64 0] (.vInt64 0)
      (.str "5") (⟨0, false⟩, [GoVal.vInt64 5], none) (by decide) (by decide),
   claim6_touched_amended.2.2.1 ⟨0, true⟩ [GoVal.vInt64 0] (.str "5")
      (⟨0, true⟩, [GoVal.vInt64 5], none) rfl (by decide),
   claim6_touched_amended.2.2.2 ⟨0, false⟩ [GoVal.vIntSlice [9, 2]]
      (.vIntSlice [9, 2]) (.str "10") (by decide) (by decide) rfl⟩

/-- C2 counterexample: the claim says a non-zero caller-supplied Destination
is never overwritten by the declared default when no command-line token,
environment variable or file value is present.  The repository's own tests
pin the opposite for slice and generic kinds: the first equation replays
`TestStringSliceFlagApply_DefaultValueWithDestination`
(`src/cli/flag_test.go:324-334`) — the non-zero destination `["CA"]` is
overwritten with the declared default `["UA", "US"]` — and the second
replays `TestParseGenericDestinationNoValueNoFlags`
(`src/cli/flag_test.go:1814-1830`) — the non-zero destination
`Parser{"a", "ok"}` is overwritten with the zero `Parser{}`. -/
theorem claim2_counterexample :
    flagApply
        ⟨.kStringSlice, "country", [], "", some (.vStringSlice ["UA", "US"]),
          some 0, [], [], none⟩ [] [] [.vStringSlice ["CA"]] []
      = some (.ok ([.vStringSlice ["UA", "US"]], [("country", ⟨0, false⟩)]))
    ∧ flagApply ⟨.kParser, "serve", ["s"], "", none, some 0, [], [], none⟩
        [] [] [.vParser "a" "ok"] []
      = some (.ok ([.vParser "" ""],
          [("serve", ⟨0, false⟩), ("s", ⟨0, false⟩)]))
    ∧ (GoVal.vStringSlice ["CA"] ≠ .vStringSlice ["UA", "US"])
    ∧ (GoVal.vStringSlice ["CA"] ≠ zeroOfKind .kStringSlice)
    ∧ (GoVal.vParser "a" "ok" ≠ zeroOfKind .kParser) := by
  refine ⟨by decide, by decide, by decide, by decide, by decide⟩

/-- C2 amended: for a scalar flag, a caller-supplied Destination holding a
non-zero value is used as-is — `Apply` never overwrites it — and a
zero-valued Destination falls through to env/file/default resolution and
receives the resolved value; for slice and generic flags, `Apply` always
writes the resolved value (env/file value, else the declared default, else
the kind's zero value) into the Destination, overwriting any non-zero
pre-set value, as the repository's tests require. -/
theorem claim2_destination_precedence_amended :
    (∀ (f : FlagDef) (env : Env) (fs : FileSys) (σ : Store) (r : Registry)
       (l : Loc) (cur : GoVal),
      f.destination = some l → σ[l]? = some cur →
      isScalarKind f.kind = true → cur ≠ zeroOfKind f.kind →
      flagApply f env fs σ r
        = some (.ok (σ, r ++ (FlagNames f).map fun n => (n, ⟨l, false⟩))))
  ∧ (∀ (f : FlagDef) (env : Env) (fs : FileSys) (σ : Store) (r : Registry)
       (l : Loc) (cur v : GoVal),
      f.destination = some l → σ[l]? = some cur →
      isScalarKind f.kind = false →
      resolveEnvDefault f env fs = .ok v →
      flagApply f env fs σ r
        = some (.ok (storeSet σ l v,
            r ++ (FlagNames f).map fun n => (n, ⟨l, false⟩))))
  ∧ (∀ (f : FlagDef) (env : Env) (fs : FileSys) (σ : Store) (r : Registry)
       (l : Loc) (v : GoVal),
      f.destination = some l → σ[l]? = some (zeroOfKind f.kind) →
      resolveEnvDefault f env fs = .ok v →
      flagApply f env fs σ r
        = some (.ok (storeSet σ l v,
            r ++ (FlagNames f).map fun n => (n, ⟨l, false⟩)))) := by
  refine ⟨?_, ?_, ?_⟩
  · intro f env fs σ r l cur h1 h2 h3 h4
    have hbeq : (cur == zeroOfKind f.kind) = false :=
      beq_eq_false_iff_ne.mpr h4
    simp only [flagApply, h1, h2, h3, hbeq, Bool.not_false, Bool.true_and,
      if_true]
  · intro f env fs σ r l cur v h1 h2 h3 h4
    simp only [flagApply, h1, h2, h3, h4, Bool.false_and,
      Bool.false_eq_true, if_false]
  · intro f env fs σ r l v h1 h2 h3
    simp only [flagApply, h1, h2, h3, beq_self_eq_true, Bool.not_true,
      Bool.and_false, Bool.false_eq_true, if_false]

/-- C2 amended witness: a string flag whose destination holds the non-zero
`"CA"` keeps it; a string-slice flag's destination `["CA"]` is overwritten
with the declared default; a zero string destination receives the declared
default. -/
theorem claim2_destination_precedence_amended_witness :
    flagApply
        ⟨.kString, "country", [], "", some (.vString "UA"), some 0, [], [],
          none⟩ [] [] [.vString "CA"] []
      = some (.ok ([.vString "CA"], [("country", ⟨0, false⟩)]))
    ∧ flagApply
        ⟨.kStringSlice, "country", [], "",
          some (.vStringSlice ["UA", "US"]), some 0, [], [], none⟩
        [] [] [.vStringSlice ["CA"]] []
      = some (.ok (storeSet [.vStringSlice ["CA"]] 0
            (.vStringSlice ["UA", "US"]), [("country", ⟨0, false⟩)]))
    ∧ flagApply
        ⟨.kString, "country", [], "", some (.vString "UA"), some 0, [], [],
          none⟩ [] [] [.vString ""] []
      = some (.ok (storeSet [.vString ""] 0 (.vString "UA"),
          [("country", ⟨0, false⟩)])) :=
  ⟨claim2_destination_precedence_amended.1
      ⟨.kString, "country", [], "", some (.vString "UA"), some 0, [], [],
        none⟩ [] [] [.vString "CA"] [] 0 (.vString "CA") rfl (by decide)
      (by decide) (by decide),
   claim2_destination_precedence_amended.2.1
      ⟨.kStringSlice, "country", [], "",
        some (.vStringSlice ["UA", "US"]), some 0, [], [], none⟩
      [] [] [.vStringSlice ["CA"]] [] 0 (.vStringSlice ["CA"])
      (.vStringSlice ["UA", "US"]) rfl (by decide) (by decide) (by decide),
   claim2_destination_precedence_amended.2.2
      ⟨.kString, "country", [], "", some (.vString "UA"), some 0, [], [],
        none⟩ [] [] [.vString ""] [] 0 (.vString "UA") rfl (by decide)
      (by decide)⟩

/-- C3: environment/file resolution returns the first environment variable
(in listed order) whose value is a nonempty string; only when no variable
matches does it fall back to the file tier, which returns the trimmed
contents of the first path that exists, is readable, and (per spec §4.4) is
not empty; when both an environment value and a file value are present the
environment value wins, e.g. `APP_FOO=123` with file contents `abc`
resolves to `123`. -/
theorem claim3_env_file_resolution :
    (∀ (env : Env) (fs : FileSys) (names paths : List String) (n : String),
      names.find? (fun m => envValue env m != "") = some n →
      flagFromEnvOrFile env fs names paths = some (envValue env n))
  ∧ (∀ (env : Env) (fs : FileSys) (names paths : List String),
      (∀ n ∈ names, envValue env n = "") →
      flagFromEnvOrFile env fs names paths = fileFrom fs paths)
  ∧ (∀ (fs : FileSys) (paths : List String) (p c : String),
      paths.find? (fun q => trimStr ((fs.lookup q).getD "") != "") = some p →
      fs.lookup p = some c →
      fileFrom fs paths = some (trimStr c))
  ∧ flagFromEnvOrFile [("APP_FOO", "123")] [("cfg", "abc")] ["APP_FOO"]
      ["cfg"] = some "123" := by
  refine ⟨?_, ?_, ?_, by decide⟩
  · intro env fs names paths n hfind
    induction names with
    | nil => cases hfind
    | cons m rest ih =>
      rw [List.find?_cons] at hfind
      unfold flagFromEnvOrFile
      by_cases hm : envValue env m = ""
      · have : (envValue env m != "") = false := by
          simp [bne_iff_ne, hm]
        rw [this] at hfind
        rw [if_neg (by simp [hm])]
        exact ih hfind
      · have : (envValue env m != "") = true := by
          simp [bne_iff_ne, hm]
        rw [this] at hfind
        cases hfind
        rw [if_pos hm]
  · intro env fs names paths hall
    induction names with
    | nil => rfl
    | cons m rest ih =>
      unfold flagFromEnvOrFile
      rw [if_neg (by simp [hall m (by simp)])]
      exact ih fun n hn => hall n (List.mem_cons_of_mem m hn)
  · intro fs paths p c hfind hlook
    induction paths with
    | nil => cases hfind
    | cons q rest ih =>
      rw [List.find?_cons] at hfind
      cases hq : fs.lookup q with
      | none =>
        have hpred : ((trimStr ((fs.lookup q).getD "") != "") = false) := by
          simp [hq, trimStr]
        rw [hpred] at hfind
        simp only [fileFrom, hq]
        exact ih hfind
      | some contents =>
        by_cases hc : trimStr contents = ""
        · have hpred : ((trimStr ((fs.lookup q).getD "") != "") = false) := by
            simp [hq, hc]
          rw [hpred] at hfind
          simp only [fileFrom, hq]
          rw [if_neg (by simp [hc])]
          exact ih hfind
        · have hpred : ((trimStr ((fs.lookup q).getD "") != "") = true) := by
            simp [hq, hc]
          rw [hpred] at hfind
          cases hfind
          rw [hq] at hlook
          cases hlook
          simp only [fileFrom, hq]
          rw [if_pos hc]

/-- C3 witness: with env `APP_FOO=123` unset and file contents `abc`, the
file tier answers; with a name list whose first match is `APP_FOO=123`, the
environment answers regardless of the file. -/
theorem claim3_env_file_resolution_witness :
    flagFromEnvOrFile [("APP_FOO", "123")] [("cfg", "abc")]
        ["APP_BAR", "APP_FOO"] ["cfg"]
      = some (envValue [("APP_FOO", "123")] "APP_FOO")
    ∧ flagFromEnvOrFile [] [("cfg", "abc")] ["APP_BAR"] ["cfg"]
      = fileFrom [("cfg", "abc")] ["cfg"]
    ∧ fileFrom [("cfg", "abc")] ["missing", "cfg"] = some (trimStr "abc") :=
  ⟨claim3_env_file_resolution.1 [("APP_FOO", "123")] [("cfg", "abc")]
      ["APP_BAR", "APP_FOO"] ["cfg"] "APP_FOO" (by decide),
   claim3_env_file_resolution.2.1 [] [("cfg", "abc")] ["APP_BAR"] ["cfg"]
      (by decide),
   claim3_env_file_resolution.2.2.1 [("cfg", "abc")] ["missing", "cfg"]
      "cfg" "abc" (by decide) (by decide)⟩

/-- C5: whenever `Apply`'s environment/file resolution step finds a string
the converter rejects, `Apply` aborts with exactly
`could not parse %q as <kind> value for flag <name>: <cause>` and registers
nothing (the error return carries no store and no registry); the last
conjunct spells the composed message out at the inputs of
`TestFlagsFromEnv`. -/
theorem claim5_env_conversion_error_format :
    (∀ (f : FlagDef) (env : Env) (fs : FileSys) (σ : Store) (r : Registry)
       (s c : String),
      f.destination = none →
      flagFromEnvOrFile env fs f.envVars f.filePaths = some s →
      Convert (zeroOfKind f.kind) (.str s) = .error c →
      flagApply f env fs σ r
        = some (.error (convErrMsg s f.kind f.name c)))
  ∧ (∀ (f : FlagDef) (env : Env) (fs : FileSys) (σ : Store) (r : Registry)
       (l : Loc) (cur : GoVal) (s c : String),
      f.destination = some l → σ[l]? = some cur →
      (isScalarKind f.kind && !(cur == zeroOfKind f.kind)) = false →
      flagFromEnvOrFile env fs f.envVars f.filePaths = some s →
      Convert (zeroOfKind f.kind) (.str s) = .error c →
      flagApply f env fs σ r
        = some (.error (convErrMsg s f.kind f.name c)))
  ∧ convErrMsg "foobar" .kInt64 "seconds" (syntaxErr "foobar")
      = "could not parse \"foobar\" as int64 value for flag seconds: "
        ++ "parsing \"foobar\": invalid syntax" := by
  refine ⟨?_, ?_, by decide⟩
  · intro f env fs σ r s c h1 h2 h3
    simp only [flagApply, resolveEnvDefault, h1, h2, h3]
  · intro f env fs σ r l cur s c h1 h2 h3 h4 h5
    simp only [flagApply, resolveEnvDefault, h1, h2, h3, h4, h5,
      Bool.false_eq_true, if_false]

/-- C5 witness: the `Int64Flag{Name: "seconds", EnvVars: ["SECONDS"]}` of
`TestFlagsFromEnv` with `SECONDS=foobar` aborts with the exact message the
test's regexp pins down. -/
theorem claim5_env_conversion_error_format_witness :
    flagApply ⟨.kInt64, "seconds", [], "", none, none, ["SECONDS"], [], none⟩
        [("SECONDS", "foobar")] [] [] []
      = some (.error (convErrMsg "foobar" .kInt64 "seconds"
          (syntaxErr "foobar"))) :=
  claim5_env_conversion_error_format.1
    ⟨.kInt64, "seconds", [], "", none, none, ["SECONDS"], [], none⟩
    [("SECONDS", "foobar")] [] [] [] "foobar" (syntaxErr "foobar") rfl
    (by decide) (by decide)

/-- C9: converting the empty string into a bool destination yields `false`
without error; every accepted true form yields `true` and every accepted
false form yields `false`; any other input is a conversion failure. -/
theorem claim9_bool_conversion :
    (∀ b : Bool, Convert (.vBool b) (.str "") = .ok (.vBool false))
  ∧ (∀ (b : Bool) (s : String), s ∈ goTrueForms →
      Convert (.vBool b) (.str s) = .ok (.vBool true))
  ∧ (∀ (b : Bool) (s : String), s ∈ goFalseForms →
      Convert (.vBool b) (.str s) = .ok (.vBool false))
  ∧ (∀ (b : Bool) (s : String),
      s ≠ "" → s ∉ goTrueForms → s ∉ goFalseForms →
      Convert (.vBool b) (.str s) = .error (syntaxErr s)) := by
  refine ⟨fun b => rfl, ?_, ?_, ?_⟩
  · intro b s hmem
    simp only [goTrueForms, List.mem_cons, List.not_mem_nil, or_false]
      at hmem
    rcases hmem with h | h | h | h | h | h <;> subst h <;> rfl
  · intro b s hmem
    simp only [goFalseForms, List.mem_cons, List.not_mem_nil, or_false]
      at hmem
    rcases hmem with h | h | h | h | h | h <;> subst h <;> rfl
  · intro b s h0 h1 h2
    simp only [Convert, kindOf, elemKind, scalarFromString, parseBoolGo,
      if_neg h0, if_neg h1, if_neg h2]

/-- C9 witness: the inputs of `TestParseBoolFromEnv` and `TestFlagsFromEnv`:
`""`, `"1"`, `"true"`, `"false"` and the failing `"foobar"`. -/
theorem claim9_bool_conversion_witness :
    Convert (.vBool false) (.str "") = .ok (.vBool false)
    ∧ Convert (.vBool false) (.str "1") = .ok (.vBool true)
    ∧ Convert (.vBool false) (.str "true") = .ok (.vBool true)
    ∧ Convert (.vBool true) (.str "false") = .ok (.vBool false)
    ∧ Convert (.vBool false) (.str "foobar") = .error (syntaxErr "foobar") :=
  ⟨claim9_bool_conversion.1 false,
   claim9_bool_conversion.2.1 false "1" (by decide),
   claim9_bool_conversion.2.1 false "true" (by decide),
   claim9_bool_conversion.2.2.1 true "false" (by decide),
   claim9_bool_conversion.2.2.2 false "foobar" (by decide) (by decide)
     (by decide)⟩

/-- C10: `NewGenericValue` requires a pointer — it faults (modelled `none`)
on every non-pointer argument and returns an adapter for every pointer —
and the adapter's `Get` yields exactly the value currently stored at that
pointer. -/
theorem claim10_new_generic_value :
    (∀ g : GoVal, NewGenericValue (.val g) = none)
  ∧ (∀ l : Loc, NewGenericValue (.ptr l) = some ⟨l, false⟩)
  ∧ (∀ (l : Loc) (σ : Store),
      (NewGenericValue (.ptr l)).map (fun v => v.Get σ) = some σ[l]?) :=
  ⟨fun _ => rfl, fun _ => rfl, fun _ _ => rfl⟩

/-- No backtick in the prefix: the split finds the later backtick. -/
theorem takeToBacktick_append {a : List Char} (r : List Char)
    (h : backtickChar ∉ a) :
    takeToBacktick (a ++ backtickChar :: r) = some (a, r) := by
  induction a with
  | nil => simp [takeToBacktick]
  | cons c cs ih =>
    have hc : ¬(c = backtickChar) := fun hh => h (by simp [hh])
    have hcs : backtickChar ∉ cs := fun hh => h (List.mem_cons_of_mem c hh)
    simp only [List.cons_append, takeToBacktick, if_neg hc, List.append_eq,
      ih hcs]

/-- No backtick at all: the split finds nothing. -/
theorem takeToBacktick_none {a : List Char} (h : backtickChar ∉ a) :
    takeToBacktick a = none := by
  induction a with
  | nil => rfl
  | cons c cs ih =>
    have hc : ¬(c = backtickChar) := fun hh => h (by simp [hh])
    have hcs : backtickChar ∉ cs := fun hh => h (List.mem_cons_of_mem c hh)
    simp only [takeToBacktick, if_neg hc, ih hcs]

/-- C8: help rendering is a pure function of the flag definition; the
placeholder is the first backtick-delimited substring of the usage text
(stripped from the displayed usage) or the literal `value` when the usage
has none; and the definition of `TestStringFlagHelpOutput` —
`StringFlag{Name: "f", Usage: "The total backtick-foo-backtick desired",
Value: "all"}` — renders to exactly
`-f foo<TAB>The total foo desired (default: "all")`. -/
theorem claim8_help_rendering :
    (∀ d1 d2 : FlagDef, d1 = d2 → Render d1 = Render d2)
  ∧ (∀ a b c : List Char, backtickChar ∉ a → backtickChar ∉ b →
      unquoteUsage (a ++ backtickChar :: (b ++ backtickChar :: c))
        = (some b, a ++ (b ++ c)))
  ∧ (∀ u : List Char, backtickChar ∉ u → unquoteUsage u = (none, u))
  ∧ Render ⟨.kString, "f", [], "The total `foo` desired",
        some (.vString "all"), none, [], [], none⟩
      = "-f foo\tThe total foo desired (default: \"all\")"
  ∧ Render ⟨.kString, "foo", [], "", some (.vString ""), none, [], [], none⟩
      = "--foo value\t" := by
  refine ⟨fun d1 d2 h => by rw [h], ?_, ?_, by decide, by decide⟩
  · intro a b c ha hb
    simp only [unquoteUsage, takeToBacktick_append (b ++ backtickChar :: c)
      ha, takeToBacktick_append c hb]
  · intro u hu
    simp only [unquoteUsage, takeToBacktick_none hu]

/-- C8 witness: the placeholder extraction at the usage text of the test —
prefix `The total `, placeholder `foo`, suffix ` desired` — and the
no-backtick case at the usage `Load configuration`. -/
theorem claim8_help_rendering_witness :
    unquoteUsage ("The total ".toList
        ++ backtickChar :: ("foo".toList ++ backtickChar :: " desired".toList))
      = (some "foo".toList, "The total ".toList ++ ("foo".toList ++ " desired".toList))
    ∧ unquoteUsage "Load configuration".toList
      = (none, "Load configuration".toList) :=
  ⟨claim8_help_rendering.2.1 "The total ".toList "foo".toList
      " desired".toList (by decide) (by decide),
   claim8_help_rendering.2.2.1 "Load configuration".toList (by decide)⟩

/-- `Apply` never changes which location the adapter points at. -/
theorem apply_ptr {v : GenericValue} {σ : Store} {input : ConvInput}
    {out : GenericValue × Store × Option String}
    (h3 : GenericValue.Apply v σ input = some out) : out.1.ptr = v.ptr := by
  unfold GenericValue.Apply at h3
  split at h3
  · cases h3
  · rename_i cur0 heq
    cases hv : v.set <;> cases hs : IsSlice cur0 <;>
      simp only [hv, hs, Bool.not_false, Bool.not_true, Bool.and_true,
        Bool.and_false, Bool.true_and, Bool.false_and, if_true, if_false,
        Bool.false_eq_true, Bool.true_eq_false] at h3 <;>
      split at h3 <;> try (cases h3)
    all_goals (split at h3 <;> cases h3 <;> rfl)

/-- The name-to-location view of a registry. -/
def regPtrs (r : Registry) : List (String × Loc) :=
  r.map fun e => (e.1, e.2.ptr)

/-- Setting a flag through the registry never rebinds any name to a
different location. -/
theorem registrySet_ptrs {r r1 : Registry} {σ σ1 : Store} {name s : String}
    {err : Option String}
    (h : registrySet r σ name s = some (r1, σ1, err)) :
    regPtrs r1 = regPtrs r := by
  induction r generalizing r1 σ σ1 err with
  | nil => cases h
  | cons e rest ih =>
    obtain ⟨n, v⟩ := e
    unfold registrySet at h
    by_cases hn : n = name
    · rw [if_pos hn] at h
      split at h
      · cases h
      · rename_i v1 σ2 err2 heq
        cases h
        simp only [regPtrs, List.map_cons]
        rw [apply_ptr heq]
    · rw [if_neg hn] at h
      split at h
      · cases h
      · rename_i rest1 σ2 err2 heq
        cases h
        have h2 := ih heq
        simp only [regPtrs, List.map_cons] at h2 ⊢
        rw [h2]

/-- The parse loop never rebinds any name to a different location. -/
theorem parseArgs_ptrs {args : List (String × String)} {r r2 : Registry}
    {σ σ2 : Store} {err : Option String}
    (h : parseArgs r σ args = some (r2, σ2, err)) :
    regPtrs r2 = regPtrs r := by
  induction args generalizing r σ with
  | nil =>
    cases h
    rfl
  | cons a rest ih =>
    obtain ⟨name, s⟩ := a
    unfold parseArgs at h
    split at h
    · cases h
    · rename_i r1 σ1 err1 heq
      cases h
      exact registrySet_ptrs heq
    · rename_i r1 σ1 heq
      exact (ih h).trans (registrySet_ptrs heq)

/-- Looking a name up in the location view is looking up the adapter and
projecting its location. -/
theorem lookup_regPtrs (r : Registry) (n : String) :
    (regPtrs r).lookup n = (r.lookup n).map GenericValue.ptr := by
  induction r with
  | nil => rfl
  | cons e rest ih =>
    obtain ⟨m, v⟩ := e
    simp only [regPtrs, List.map_cons, List.lookup]
    cases hm : (n == m)
    · simpa [regPtrs] using ih
    · rfl

/-- Looking up any of the registered names of one flag finds the shared
adapter. -/
theorem lookup_names_map (L : Loc) (names : List String) (n : String)
    (h : n ∈ names) :
    (names.map (fun m => (m, (⟨L, false⟩ : GenericValue)))).lookup n
      = some ⟨L, false⟩ := by
  induction names with
  | nil => cases h
  | cons m rest ih =>
    simp only [List.map_cons, List.lookup]
    cases hm : (n == m)
    · apply ih
      rcases List.mem_cons.mp h with h1 | h1
      · rw [h1] at hm
        simp at hm
      · exact h1
    · rfl

/-- A successful `flagApply` registers exactly one adapter per name, all
pointing at one shared location. -/
theorem flagApply_shape {f : FlagDef} {env : Env} {fs : FileSys}
    {σ σ1 : Store} {r1 : Registry}
    (h : flagApply f env fs σ [] = some (.ok (σ1, r1))) :
    ∃ L : Loc, r1 = (FlagNames f).map fun n => (n, ⟨L, false⟩) := by
  unfold flagApply at h
  split at h
  · rename_i l hdest
    split at h
    · cases h
    · split at h
      · cases h
        exact ⟨l, by simp⟩
      · split at h
        · cases h
        · cases h
          exact ⟨l, by simp⟩
  · split at h
    · cases h
    · cases h
      exact ⟨σ.length, by simp⟩

/-- C7: all names and aliases of one applied flag share one storage
location — after any parse, the value observed under any registered name
equals the value observed under any other, for every flag definition. -/
theorem claim7_alias_coherence :
    ∀ (f : FlagDef) (env : Env) (fs : FileSys) (σ σ1 σ2 : Store)
      (r1 r2 : Registry) (args : List (String × String)) (err : Option String)
      (n1 n2 : String),
      flagApply f env fs σ [] = some (.ok (σ1, r1)) →
      parseArgs r1 σ1 args = some (r2, σ2, err) →
      n1 ∈ FlagNames f → n2 ∈ FlagNames f →
      observe r2 σ2 n1 = observe r2 σ2 n2 := by
  intro f env fs σ σ1 σ2 r1 r2 args err n1 n2 happ hparse h1 h2
  obtain ⟨L, hr⟩ := flagApply_shape happ
  have hptrs : regPtrs r2 = regPtrs r1 := parseArgs_ptrs hparse
  have key : ∀ n, n ∈ FlagNames f →
      (r2.lookup n).map GenericValue.ptr = some L := by
    intro n hn
    calc (r2.lookup n).map GenericValue.ptr
        = (regPtrs r2).lookup n := (lookup_regPtrs r2 n).symm
      _ = (regPtrs r1).lookup n := by rw [hptrs]
      _ = (r1.lookup n).map GenericValue.ptr := lookup_regPtrs r1 n
      _ = some L := by
          rw [hr, lookup_names_map L (FlagNames f) n hn]
          rfl
  rcases Option.map_eq_some'.mp (key n1 h1) with ⟨v1, hv1, hp1⟩
  rcases Option.map_eq_some'.mp (key n2 h2) with ⟨v2, hv2, hp2⟩
  simp only [observe, hv1, hv2, hp1, hp2]

/-- C7 witness: the string flag `hay` with aliases `H` and `hayyy` of
`TestStringFlagApply_SetsAllNames`, set through the alias `H`: the value
observed under `hay` equals the value observed under `hayyy`. -/
theorem claim7_alias_coherence_witness :
    observe [("hay", ⟨0, false⟩), ("H", ⟨0, false⟩), ("hayyy", ⟨0, false⟩)]
        [.vString "yuu"] "hay"
      = observe
          [("hay", ⟨0, false⟩), ("H", ⟨0, false⟩), ("hayyy", ⟨0, false⟩)]
          [.vString "yuu"] "hayyy" :=
  claim7_alias_coherence
    ⟨.kString, "hay", ["H", "hayyy"], "", none, none, [], [], none⟩
    [] [] [] [.vString ""] [.vString "yuu"]
    [("hay", ⟨0, false⟩), ("H", ⟨0, false⟩), ("hayyy", ⟨0, false⟩)]
    [("hay", ⟨0, false⟩), ("H", ⟨0, false⟩), ("hayyy", ⟨0, false⟩)]
    [("H", "yuu")] none "hay" "hayyy" (by decide) (by decide) (by decide)
    (by decide)

end Spur
